import Mathlib

set_option maxRecDepth 10000

/-!
Verification of the rule-analysis engine of the cursor-lint repository.

The JavaScript sources are shallowly embedded: strings are Lean `String`s
(lists of characters), JavaScript objects holding header data are
association lists with overwrite-on-update semantics, and the floating
point ratio computations of the redundancy detector and the score
aggregator are modelled with exact rationals (all ratios involved have
tiny denominators, far below any range where IEEE doubles could disagree
with exact arithmetic on the comparisons performed).

File-system access is embedded as explicit state threading over a
snapshot structure `FS`; every file-system primitive of the code is a
read, which the state-preservation theorems make explicit.
-/

namespace CursorLint

/-! ## Basic string machinery mirroring the JavaScript primitives -/

/-- Character class of the JavaScript regex `\s` (without exotic Unicode
spaces beyond NBSP, which the sources never rely on). -/
def jsSpace (c : Char) : Bool :=
  c == ' ' || c == '\t' || c == '\n' || c == '\r' || c == '\x0b' || c == '\x0c' || c == '\u00A0'

/-- Removal of `jsSpace` characters from both ends, mirroring
JavaScript `String.prototype.trim`. -/
def trimChars (l : List Char) : List Char :=
  ((l.dropWhile jsSpace).reverse.dropWhile jsSpace).reverse

/-- JavaScript `s.trim()`. -/
def jsTrim (s : String) : String := ⟨trimChars s.data⟩

/-- Whether the first list is a leading segment of the second. -/
def isPrefixOfL : List Char → List Char → Bool
  | [], _ => true
  | _ :: _, [] => false
  | a :: as, b :: bs => a == b && isPrefixOfL as bs

/-- Index of the first occurrence of `needle` in the haystack, mirroring
JavaScript `String.prototype.indexOf` (which returns `-1`, here `none`,
when absent and `0` for the empty needle). -/
def firstIdxOfSub (needle : List Char) : List Char → Option Nat
  | [] => if isPrefixOfL needle [] then some 0 else none
  | c :: rest =>
      if isPrefixOfL needle (c :: rest) then some 0
      else (firstIdxOfSub needle rest).map (· + 1)

/-- JavaScript `s.includes(sub)`. -/
def containsStr (s sub : String) : Bool := (firstIdxOfSub sub.data s.data).isSome

/-- JavaScript `s.startsWith(p)`. -/
def strStartsWith (s p : String) : Bool := isPrefixOfL p.data s.data

/-- JavaScript `s.endsWith(p)`. -/
def strEndsWith (s p : String) : Bool := isPrefixOfL p.data.reverse s.data.reverse

/-- JavaScript `s.toLowerCase()` (character-wise ASCII lowering; the
pattern tables the sources match against are all ASCII). -/
def jsToLower (s : String) : String := ⟨s.data.map Char.toLower⟩

/-- Splitting worker for `jsSplitNl`. -/
def splitNlGo (acc : List Char) : List Char → List String
  | [] => [⟨acc.reverse⟩]
  | c :: rest =>
      if c == '\n' then ⟨acc.reverse⟩ :: splitNlGo [] rest
      else splitNlGo (c :: acc) rest

/-- JavaScript `s.split('\n')`: the empty string yields `[""]`, and each
newline separates one more (possibly empty) field. -/
def jsSplitNl (s : String) : List String := splitNlGo [] s.data

/-- JavaScript `Array.prototype.join(sep)`. -/
def joinSep (sep : String) : List String → String
  | [] => ""
  | [x] => x
  | x :: y :: rest => x ++ sep ++ joinSep sep (y :: rest)

/-- First index of an element in a list of strings, mirroring
`Array.prototype.indexOf`. -/
def listIndexOf (x : String) : List String → Option Nat
  | [] => none
  | y :: rest => if y == x then some 0 else (listIndexOf x rest).map (· + 1)

/-! ## Header values and header data (JavaScript objects) -/

/-- A decoded header value: `parseFrontmatter` only ever produces
booleans and strings. -/
inductive HVal where
  | bool (b : Bool)
  | str (s : String)
deriving DecidableEq, Repr

/-- Header data: an association list with JavaScript-object overwrite
semantics (`data[key] = v` replaces an existing binding in place). -/
abbrev HeaderData := List (String × HVal)

/-- JavaScript `data[key] = v`. -/
def upsert (k : String) (v : HVal) : HeaderData → HeaderData
  | [] => [(k, v)]
  | (k', v') :: rest => if k' == k then (k, v) :: rest else (k', v') :: upsert k v rest

/-- JavaScript property read `data[key]` (`none` encodes `undefined`). -/
def lookupKey (k : String) : HeaderData → Option HVal
  | [] => none
  | (k', v') :: rest => if k' == k then some v' else lookupKey k rest

/-- JavaScript truthiness of `data[key]`: `undefined`, `false` and the
empty string are the only falsy values this data model can hold. -/
def truthy : Option HVal → Bool
  | none => false
  | some (.bool b) => b
  | some (.str s) => !(s == "")

/-! ## Header extraction (the regex `^---\n([\s\S]*?)\n---`) -/

/-- The regex `^---\n([\s\S]*?)\n---` of both parsers: the text must
start with `---` and a newline, and the (lazy, hence first) closing
`\n---` ends the captured block. -/
def extractHeader (content : String) : Option String :=
  if strStartsWith content "---\n" then
    match firstIdxOfSub "\n---".data (content.data.drop 4) with
    | some i => some ⟨(content.data.drop 4).take i⟩
    | none => none
  else none

/-! ## The tri-state parser `parseFrontmatter` of src/index.js -/

/-- Result record of `parseFrontmatter` in src/index.js. -/
structure FMResult where
  found : Bool
  data : Option HeaderData
  error : Option String
deriving DecidableEq, Repr

/-- The regex test of src/index.js line 44 (indented non-list line):
the line starts with whitespace, has a non-whitespace character, and its
first non-whitespace character is not a dash. -/
def jsIndentNonList (d : List Char) : Bool :=
  match d with
  | [] => false
  | c :: _ =>
      jsSpace c &&
      (match d.dropWhile jsSpace with
       | [] => false
       | c2 :: _ => !(c2 == '-'))

/-- Mirror of `lines[lines.indexOf(line) - 1]`: the element before the first
occurrence of the line's text (`undefined`, here `none`, when the first
occurrence is at index 0). -/
def prevLineOf (lines : List String) (line : String) : Option String :=
  match listIndexOf line lines with
  | some (i + 1) => lines.get? i
  | _ => none

/-- The full guard of src/index.js lines 44-49: indented non-list line
whose (first-occurrence) predecessor is truthy and does not end in a
colon. -/
def indentBad (lines : List String) (line : String) : Bool :=
  jsIndentNonList line.data &&
  (match prevLineOf lines line with
   | some p => !(p == "") && !(strEndsWith p ":")
   | none => false)

/-- Value coercion of src/index.js lines 51-54: literal booleans, then
quote stripping, then the raw trimmed text. -/
def coerceVal (rawVal : String) : HVal :=
  if rawVal == "true" then .bool true
  else if rawVal == "false" then .bool false
  else if strStartsWith rawVal "\"" && strEndsWith rawVal "\"" then
    .str ⟨(rawVal.data.drop 1).dropLast⟩
  else .str rawVal

/-- The `for (const line of lines)` loop of `parseFrontmatter`:
lines without a colon are skipped, the indentation guard aborts with
`none`, and every other line upserts its coerced `key: value` pair. -/
def parseLinesGo (allLines : List String) : List String → HeaderData → Option HeaderData
  | [], acc => some acc
  | line :: rest, acc =>
      match firstIdxOfSub [':'] line.data with
      | none => parseLinesGo allLines rest acc
      | some colonIdx =>
          if indentBad allLines line then none
          else
            parseLinesGo allLines rest
              (upsert (jsTrim ⟨line.data.take colonIdx⟩)
                (coerceVal (jsTrim ⟨line.data.drop (colonIdx + 1)⟩)) acc)

/-- Mirror of `parseFrontmatter` of src/index.js: the tri-state header parser.
(The `try`/`catch` of the source is dead code — nothing in the loop can
throw — so the only error produced is the indentation one.) -/
def parseFrontmatter (content : String) : FMResult :=
  match extractHeader content with
  | none => ⟨false, none, none⟩
  | some inner =>
      let lines := jsSplitNl inner
      match parseLinesGo lines lines [] with
      | none => ⟨true, none, some "Invalid YAML indentation"⟩
      | some d => ⟨true, some d, none⟩

/-! ## The simple parser `parseMdcFrontmatter` of the standalone linter -/

/-- Value coercion of the standalone linter's parser: literal booleans,
otherwise the raw trimmed text (no quote stripping). -/
def coerceValSimple (value : String) : HVal :=
  if value == "true" then .bool true
  else if value == "false" then .bool false
  else .str value

/-- Mirror of `parseMdcFrontmatter` of the standalone linter (part_003): no error
states, no indentation guard. -/
def parseMdcFrontmatter (content : String) : Option HeaderData :=
  match extractHeader content with
  | none => none
  | some inner =>
      some ((jsSplitNl inner).foldl
        (fun acc line =>
          match firstIdxOfSub [':'] line.data with
          | none => acc
          | some colonIdx =>
              upsert (jsTrim ⟨line.data.take colonIdx⟩)
                (coerceValSimple (jsTrim ⟨line.data.drop (colonIdx + 1)⟩)) acc)
        [])

/-! ## Issues and the two lint engines -/

/-- Issue severity; the standalone linter calls this field `type`. -/
inductive Severity where
  | error
  | warning
  | info
deriving DecidableEq, Repr

/-- One diagnostic, as pushed by both lint engines. -/
structure Issue where
  severity : Severity
  message : String
  hint : Option String := none
  line : Option Nat := none
deriving DecidableEq, Repr

/-- The `VAGUE_PATTERNS` table of src/index.js (24 entries). -/
def VAGUE_PATTERNS_INDEX : List String :=
  ["write clean code", "follow best practices", "be consistent",
   "write maintainable code", "handle errors properly", "use proper naming",
   "keep it simple", "write readable code", "follow conventions",
   "use good patterns", "write efficient code", "be careful",
   "think before coding", "write good tests", "follow solid principles",
   "use common sense", "write quality code", "follow the style guide",
   "be thorough", "write robust code", "use good naming", "be helpful",
   "use appropriate patterns", "be concise"]

/-- The `VAGUE_PATTERNS` table of the standalone linter (20 entries). -/
def VAGUE_PATTERNS_LINT : List String :=
  ["write clean code", "follow best practices", "be consistent",
   "write maintainable code", "handle errors properly", "use proper naming",
   "keep it simple", "write readable code", "follow conventions",
   "use good patterns", "write efficient code", "be careful",
   "think before coding", "write good tests", "follow solid principles",
   "use common sense", "write quality code", "follow the style guide",
   "be thorough", "write robust code"]

/-- Vague-phrase scan shared by every lint entry point: each pattern's
first occurrence in the lowercased content yields one warning whose line
number counts the newlines in the text before the match. -/
def vagueIssues (pats : List String) (content : String) : List Issue :=
  pats.filterMap (fun p =>
    match firstIdxOfSub p.data (jsToLower content).data with
    | none => none
    | some idx =>
        some { severity := .warning,
               message := "Vague rule detected: \"" ++ p ++ "\"",
               line := some (jsSplitNl ⟨content.data.take idx⟩).length })

/-- The "Missing YAML frontmatter" issue (identical in both engines). -/
def missingFMIssue : Issue :=
  { severity := .error, message := "Missing YAML frontmatter",
    hint := some "Add --- block with description and alwaysApply: true" }

/-- The "Missing alwaysApply: true" issue (identical in both engines). -/
def missingAlwaysIssue : Issue :=
  { severity := .error, message := "Missing alwaysApply: true",
    hint := some "Add alwaysApply: true to frontmatter for agent mode" }

/-- The missing-description warning (identical in both engines). -/
def missingDescIssue : Issue :=
  { severity := .warning, message := "Missing description in frontmatter",
    hint := some "Add a description so Cursor knows when to apply this rule" }

/-- The glob-syntax error of src/index.js. -/
def globIssueMdc : Issue :=
  { severity := .error,
    message := "Globs should be YAML array, not comma-separated string",
    hint := some "Use globs:\\n  - \"*.ts\"\\n  - \"*.tsx\"" }

/-- The glob-syntax error of the standalone linter. -/
def globIssueLint : Issue :=
  { severity := .error,
    message := "Bad glob syntax: use YAML array, not comma-separated string",
    hint := some "Use globs:\\n  - \"*.ts\"\\n  - \"*.tsx\"" }

/-- The `.cursorrules` agent-mode advisory (identical in both engines). -/
def cursorrulesWarnIssue : Issue :=
  { severity := .warning, message := ".cursorrules may be ignored in agent mode",
    hint := some "Use .cursor/rules/*.mdc with alwaysApply: true for agent mode compatibility" }

/-- The missing-`alwaysApply` check shared verbatim by both engines. -/
def alwaysApplyCheck (d : HeaderData) : List Issue :=
  if !truthy (lookupKey "alwaysApply" d) then [missingAlwaysIssue] else []

/-- The missing-description check shared verbatim by both engines. -/
def descriptionCheck (d : HeaderData) : List Issue :=
  if !truthy (lookupKey "description" d) then [missingDescIssue] else []

/-- The glob check of src/index.js lines 79-81: any comma in a string
`globs` value is an error (no bracket exemption). -/
def globsCheckMdc (d : HeaderData) : List Issue :=
  match lookupKey "globs" d with
  | some (.str s) =>
      if !(s == "") && containsStr s "," then [globIssueMdc] else []
  | _ => []

/-- The structural issues of `lintMdcFile` once the header parsed with
data and no error (src/index.js lines 73-81). -/
def mdcDataIssues (d : HeaderData) : List Issue :=
  alwaysApplyCheck d ++ descriptionCheck d ++ globsCheckMdc d

/-- Mirror of `lintMdcFile` of src/index.js, as a function of the file contents
(the file read is handled by the file-system layer below).  The
`found = true, data = null, error = null` shape cannot arise (see the
tri-state invariant) and is mapped to no structural issues. -/
def lintMdcFile (content : String) : List Issue :=
  (match parseFrontmatter content with
   | ⟨false, _, _⟩ => [missingFMIssue]
   | ⟨true, _, some e⟩ =>
       [{ severity := .error, message := "YAML frontmatter error: " ++ e,
          hint := some "Fix frontmatter indentation/syntax" }]
   | ⟨true, some d, none⟩ => mdcDataIssues d
   | ⟨true, none, none⟩ => []) ++
  vagueIssues VAGUE_PATTERNS_INDEX content

/-- Mirror of `lintCursorrules` of src/index.js, as a function of file contents. -/
def lintCursorrules (content : String) : List Issue :=
  cursorrulesWarnIssue :: vagueIssues VAGUE_PATTERNS_INDEX content

/-! ## The standalone linter `lintFile` (part_003) -/

/-- Constant `MAX_LINES_WARNING` of the standalone linter. -/
def MAX_LINES_WARNING : Nat := 150

/-- Constant `MAX_LINES_ERROR` of the standalone linter. -/
def MAX_LINES_ERROR : Nat := 300

/-- Mirror of `path.basename`: the component after the last slash. -/
def pathBasename (p : String) : String :=
  ⟨((p.data.reverse.takeWhile (fun c => !(c == '/'))).reverse)⟩

/-- Mirror of `path.extname`: the suffix of the basename from its last dot, and
the empty string when there is no dot or the basename starts with the
dot (so `.cursorrules` has extension `""`). -/
def pathExtname (p : String) : String :=
  let b := (pathBasename p).data
  let tail := b.reverse.takeWhile (fun c => !(c == '.'))
  if tail.length + 1 < b.length then ⟨'.' :: tail.reverse⟩ else ""

/-- The glob check of the standalone linter (part_003 lines 90-98): a
comma in a string `globs` value is an error unless the value starts with
an opening bracket. -/
def globsCheckLint (d : HeaderData) : List Issue :=
  match lookupKey "globs" d with
  | some (.str s) =>
      if !(s == "") && (containsStr s "," && !(strStartsWith s "[")) then
        [globIssueLint]
      else []
  | _ => []

/-- The structural issues of the standalone linter once the header
parsed (part_003 lines 75-98). -/
def mdcDataIssuesLint (d : HeaderData) : List Issue :=
  alwaysApplyCheck d ++ descriptionCheck d ++ globsCheckLint d

/-- The `.mdc`-specific structural checks of the standalone linter
(part_003 lines 66-99): note the bracket exemption on the glob check. -/
def mdcIssuesLint (content : String) : List Issue :=
  match parseMdcFrontmatter content with
  | none => [missingFMIssue]
  | some fm => mdcDataIssuesLint fm

/-- The error-severity length issue of the standalone linter. -/
def lenErrIssue (lineCount : Nat) : Issue :=
  { severity := .error,
    message := "File is " ++ toString lineCount ++ " lines (max recommended: "
      ++ toString MAX_LINES_WARNING ++ ")",
    hint := some "Long files may exceed context window. Split into multiple .mdc files." }

/-- The warning-severity length issue of the standalone linter. -/
def lenWarnIssue (lineCount : Nat) : Issue :=
  { severity := .warning,
    message := "File is " ++ toString lineCount ++ " lines — consider splitting",
    hint := some "Shorter files are more reliably loaded into context." }

/-- The length check of the standalone linter (part_003 lines 117-129). -/
def lengthIssues (lineCount : Nat) : List Issue :=
  if lineCount > MAX_LINES_ERROR then [lenErrIssue lineCount]
  else if lineCount > MAX_LINES_WARNING then [lenWarnIssue lineCount]
  else []

/-- Mirror of `lintFile` of the standalone linter (part_003): .cursorrules
advisory, `.mdc` structural checks, vague-phrase scan, length check, in
that order. -/
def lintFile (filePath content : String) : List Issue :=
  (if pathBasename filePath == ".cursorrules" then [cursorrulesWarnIssue] else []) ++
  (if pathExtname filePath == ".mdc" then mdcIssuesLint content else []) ++
  vagueIssues VAGUE_PATTERNS_LINT content ++
  lengthIssues (jsSplitNl content).length

/-! ## Cross-analysis engine (audit.js, part_004) -/

/-- One loaded rule as produced by `loadRules` (the `content` and `fm`
fields are never consulted by the cross-analysis functions and are
omitted). -/
structure Rule where
  file : String
  body : String
  globs : List String
  alwaysApply : Bool
deriving DecidableEq, Repr

/-- JavaScript `\w`: ASCII letters, digits and underscore. -/
def isWordChar (c : Char) : Bool := c.isAlphanum || c == '_'

/-- The capture of the regex matching a trailing star-dot-extension
(`extA[1]` in `globsOverlap`): the suffix of word characters after a
final star-dot, when the whole tail after that star-dot is word
characters. -/
def globExt (g : String) : Option String :=
  let r := g.data.reverse
  let w := r.takeWhile isWordChar
  if w.isEmpty then none
  else
    match r.drop w.length with
    | '.' :: '*' :: _ => some ⟨w.reverse⟩
    | _ => none

/-- Mirror of `globsOverlap` of audit.js: textual equality, the universal
wildcard, or an identical trailing extension. -/
def globsOverlap (a b : String) : Bool :=
  a == b || a == "**/*" || b == "**/*" ||
  (match globExt a, globExt b with
   | some x, some y => x == y
   | _, _ => false)

/-- The contradiction pattern-pair table of `findContradictions`; each
regex is a case-insensitive alternation of literal substrings, stored as
the list of its alternatives. -/
def contradictionPairs : List (List String × List String) :=
  [(["always use semicolons"], ["never use semicolons", "no semicolons"]),
   (["use single quotes"], ["use double quotes"]),
   (["use tabs"], ["use spaces"]),
   (["use css modules"], ["use tailwind", "use styled-components"]),
   (["use relative imports"], ["use absolute imports", "use path aliases"]),
   (["prefer classes"], ["prefer functions", "prefer functional"]),
   (["use default exports"], ["use named exports", "no default exports"]),
   (["use arrow functions"], ["use function declarations", "avoid arrow functions"]),
   (["use any"], ["never use any", "avoid any", "no any"])]

/-- Mirror of `regex.test(body)` for an alternation of lowercase literals against
an already-lowercased body. -/
def patTest (alts : List String) (body : String) : Bool :=
  alts.any (fun p => containsStr body p)

/-- The `.source` text of an alternation pattern. -/
def patSource (alts : List String) : String := joinSep "|" alts

/-- Mirror of `findContradictions` of audit.js over two lowercased bodies. -/
def findContradictions (a b : String) : List String :=
  contradictionPairs.filterMap (fun pr =>
    if (patTest pr.1 a && patTest pr.2 b) || (patTest pr.2 a && patTest pr.1 b) then
      some ("Conflicting style: \"" ++ patSource pr.1 ++ "\" vs \"" ++ patSource pr.2 ++ "\"")
    else none)

/-- One reported conflicting pair. -/
structure Conflict where
  fileA : String
  fileB : String
  reason : String
  severity : Severity
deriving DecidableEq, Repr

/-- The body of the double loop of `findConflicts` for one ordered pair:
skip when no scope overlap and neither rule is always-apply, otherwise
report when the contradiction table matches. -/
def conflictFor (a b : Rule) : List Conflict :=
  let overlapping := a.globs.any (fun ag => b.globs.any (fun bg => globsOverlap ag bg))
  if !overlapping && !a.alwaysApply && !b.alwaysApply then []
  else
    let cs := findContradictions (jsToLower a.body) (jsToLower b.body)
    if cs.length > 0 then
      [{ fileA := a.file, fileB := b.file, reason := joinSep "; " cs, severity := .warning }]
    else []

/-- Inner loop of `findConflicts` (`j` ranging over the tail). -/
def conflictsAgainst (a : Rule) : List Rule → List Conflict
  | [] => []
  | b :: rest => conflictFor a b ++ conflictsAgainst a rest

/-- Mirror of `findConflicts` of audit.js over all unordered pairs, in loop
order. -/
def findConflicts : List Rule → List Conflict
  | [] => []
  | a :: rest => conflictsAgainst a rest ++ findConflicts rest

/-- One reported redundant pair. -/
structure Redundant where
  fileA : String
  fileB : String
  overlapPct : Int
  sharedLines : Nat
deriving DecidableEq, Repr

/-- JavaScript `Set` construction: first occurrences, in insertion
order. -/
def dedupGo (seen : List String) : List String → List String
  | [] => []
  | x :: xs => if seen.contains x then dedupGo seen xs else x :: dedupGo (x :: seen) xs

/-- The normalized line set of a body: trimmed lines longer than 10
characters, deduplicated. -/
def bodyLineSet (body : String) : List String :=
  dedupGo [] (((jsSplitNl body).map jsTrim).filter (fun l => l.length > 10))

/-- Mirror of `Math.round` for the non-negative ratios this code produces
(JavaScript rounds half away from zero toward positive infinity). -/
def jsRound (q : ℚ) : ℤ := ⌊q + 1 / 2⌋

/-- The body of the double loop of `findRedundancy` for one ordered
pair: skip empty line sets, then report when the overlap ratio relative
to the smaller set exceeds 0.6. -/
def redundantFor (a b : Rule) : List Redundant :=
  let aLines := bodyLineSet a.body
  let bLines := bodyLineSet b.body
  if aLines.length == 0 || bLines.length == 0 then []
  else
    let overlap := aLines.countP (fun l => bLines.contains l)
    let overlapPct : ℚ := (overlap : ℚ) / (min aLines.length bLines.length : ℚ)
    if overlapPct > 6 / 10 then
      [{ fileA := a.file, fileB := b.file,
         overlapPct := jsRound (overlapPct * 100), sharedLines := overlap }]
    else []

/-- Inner loop of `findRedundancy`. -/
def redundantAgainst (a : Rule) : List Rule → List Redundant
  | [] => []
  | b :: rest => redundantFor a b ++ redundantAgainst a rest

/-- Mirror of `findRedundancy` of audit.js over all unordered pairs, in loop
order. -/
def findRedundancy : List Rule → List Redundant
  | [] => []
  | a :: rest => redundantAgainst a rest ++ findRedundancy rest

/-! ## File-system snapshot and threaded reads

The doctor aggregator reads the project directory through `fs`
primitives.  The snapshot is embedded as a value of `FS`, and each
primitive takes and returns the file system, so that the scoring
pipeline threads the state exactly as the sequential `await`-separated
calls of the JavaScript do; a write would be a primitive whose returned
state differs, and determinism of the aggregator (claim C9) is the
theorem that the threaded state comes back unchanged.  Reads of missing
entries are total here (empty results) where Node would throw; every
call site in doctor.js guards its reads with existence checks or
`try`/`catch`, so the difference is unobservable for well-formed
snapshots. -/

/-- A project-directory snapshot: file contents, directory listings, and
the precomputed coverage-gap list that the spec (sections 4.6 and 6)
declares an external collaborator input. -/
structure FS where
  files : List (String × String)
  dirs : List (String × List String)
  coverageGaps : List String
deriving DecidableEq

/-- Mirror of `fs.existsSync`. -/
def existsS (p : String) (fs : FS) : Bool × FS :=
  (fs.files.any (fun f => f.1 == p) || fs.dirs.any (fun d => d.1 == p), fs)

/-- Mirror of `fs.readdirSync` (empty listing for a missing directory). -/
def readdirS (p : String) (fs : FS) : List String × FS :=
  ((fs.dirs.lookup p).getD [], fs)

/-- Mirror of `fs.readFileSync` (empty contents for a missing file). -/
def readFileS (p : String) (fs : FS) : String × FS :=
  ((fs.files.lookup p).getD "", fs)

/-- Mirror of `fs.statSync(p).isDirectory()`. -/
def isDirS (p : String) (fs : FS) : Bool × FS :=
  (fs.dirs.any (fun d => d.1 == p), fs)

/-- The "No Cursor rules found" fallback result of `lintProject`. -/
def noRulesIssue : Issue :=
  { severity := .warning, message := "No Cursor rules found in this directory" }

/-- The `.mdc` loop of `lintProject`: read and lint each file in
directory order. -/
def lintMdcFilesS : List String → FS → List (String × List Issue) × FS
  | [], fs => ([], fs)
  | p :: rest, fs =>
      let r := readFileS p fs
      let t := lintMdcFilesS rest r.2
      ((p, lintMdcFile r.1) :: t.1, t.2)

/-- Mirror of `lintProject` of src/index.js over a snapshot: the legacy file
first, then every `.mdc` file of the rules directory, with the
"no rules" fallback. -/
def lintProjectS (dir : String) (fs0 : FS) : List (String × List Issue) × FS :=
  let crPath := dir ++ "/.cursorrules"
  let e1 := existsS crPath fs0
  let part1 :=
    if e1.1 then
      let rc := readFileS crPath e1.2
      ([(crPath, lintCursorrules rc.1)], rc.2)
    else ([], e1.2)
  let rulesDir := dir ++ "/.cursor/rules"
  let e2 := existsS rulesDir part1.2
  let d2 := isDirS rulesDir e2.2
  let part2 :=
    if e2.1 && d2.1 then
      let entries := readdirS rulesDir d2.2
      lintMdcFilesS
        (((entries.1.filter (fun e => strEndsWith e ".mdc")).map
          (fun e => rulesDir ++ "/" ++ e))) entries.2
    else ([], d2.2)
  let results := part1.1 ++ part2.1
  if results.length == 0 then ([(dir, [noRulesIssue])], part2.2)
  else (results, part2.2)

/-- Modelled from the spec: the `TokenEstimator` of section 4.5.  Its
implementation (src/stats.js) is not among the given sources; the spec
fixes `estimate(text) = ceil(character_length / 4)`, the same formula the
splitter in fix.js uses. -/
def estimateTokens (text : String) : Nat := (text.length + 3) / 4

/-- Token sum over a list of files. -/
def sumTokensS : List String → FS → Nat × FS
  | [], fs => (0, fs)
  | p :: rest, fs =>
      let r := readFileS p fs
      let t := sumTokensS rest r.2
      (estimateTokens r.1 + t.1, t.2)

/-- Modelled from the spec: `showStats(dir).totalTokens`.  src/stats.js
is not among the given sources; per spec sections 4.5 and 4.6 the total
is the uniform token estimate over every rule document (the legacy root
file plus the modern rules directory). -/
def statsTokensS (dir : String) (fs0 : FS) : Nat × FS :=
  let crPath := dir ++ "/.cursorrules"
  let e := existsS crPath fs0
  let cr :=
    if e.1 then
      let rc := readFileS crPath e.2
      (estimateTokens rc.1, rc.2)
    else (0, e.2)
  let rulesDir := dir ++ "/.cursor/rules"
  let e2 := existsS rulesDir cr.2
  let rd := readdirS rulesDir e2.2
  let s :=
    if e2.1 then
      sumTokensS
        ((rd.1.filter (fun f => strEndsWith f ".mdc")).map
          (fun f => rulesDir ++ "/" ++ f)) rd.2
    else (0, rd.2)
  (cr.1 + s.1, s.2)

/-- Modelled from the spec: `showStats(dir).coverageGaps`.  Spec section
6 declares the coverage-gap list a precomputed input supplied by an
external collaborator, so the snapshot carries it opaquely. -/
def gapsS (fs : FS) : List String × FS := (fs.coverageGaps, fs)

/-- The entry scan of the skills check: a subdirectory containing a
SKILL.md file (doctor.js lines 103-111); `Array.prototype.some`
short-circuits on the first hit. -/
def skillsEntriesS (sd : String) : List String → FS → Bool × FS
  | [], fs => (false, fs)
  | e :: rest, fs =>
      let d := isDirS (sd ++ "/" ++ e) fs
      let x := existsS (sd ++ "/" ++ e ++ "/SKILL.md") d.2
      if d.1 && x.1 then (true, x.2) else skillsEntriesS sd rest x.2

/-- One skills-directory convention probe. -/
def hasSkillsDirS (sd : String) (fs0 : FS) : Bool × FS :=
  let e := existsS sd fs0
  if e.1 then
    let entries := readdirS sd e.2
    skillsEntriesS sd entries.1 entries.2
  else (false, e.2)

/-- One named check result of the report. -/
structure CheckRes where
  name : String
  status : String
  detail : String
deriving DecidableEq, Repr

/-- The aggregate report of doctor.js. -/
structure Report where
  checks : List CheckRes
  score : Nat
  maxScore : Nat
  grade : String
  percentage : Int
deriving DecidableEq, Repr

/-- Issue counting of doctor.js lines 45-52 (`info` counts as
neither). -/
def countSev (rs : List (String × List Issue)) (sev : Severity) : Nat :=
  (rs.map (fun r => (r.2.filter (fun i => i.severity == sev)).length)).sum

/-- The grade and percentage computation of doctor.js lines 121-129,
applied to the accumulated score and the (constant) accumulated
maximum. -/
def finishReport (checks : List CheckRes) (score : Nat) : Report :=
  let maxScore : Nat := 20 + 10 + 30 + 15 + 15 + 10
  let pct : ℚ := ((score : ℚ) / (maxScore : ℚ)) * 100
  { checks := checks, score := score, maxScore := maxScore,
    grade :=
      if pct ≥ 90 then "A"
      else if pct ≥ 75 then "B"
      else if pct ≥ 60 then "C"
      else if pct ≥ 40 then "D"
      else "F",
    percentage := jsRound pct }

/-- English plural suffix used by the detail strings. -/
def plural (n : Nat) : String := if n != 1 then "s" else ""

/-- Mirror of `doctor` of doctor.js over a snapshot: the six weighted checks, the
grade and the rounded percentage, returned together with the threaded
file-system state. -/
def doctorRun (dir : String) (fs0 : FS) : Report × FS :=
  let rulesDir := dir ++ "/.cursor/rules"
  let e1 := existsS rulesDir fs0
  let rd := readdirS rulesDir e1.2
  let hasMdc := e1.1 && (rd.1.filter (fun f => strEndsWith f ".mdc")).length > 0
  let e2 := existsS (dir ++ "/.cursorrules") rd.2
  let hasCursorrules := e2.1
  let s1 : Nat := if hasMdc then 20 else if hasCursorrules then 5 else 0
  let c1 : CheckRes :=
    if hasMdc then
      ⟨"Rules exist", "pass", ".cursor/rules/ found with .mdc files"⟩
    else if hasCursorrules then
      ⟨"Rules exist", "warn", "Only .cursorrules found — run --migrate to convert to .mdc format"⟩
    else
      ⟨"Rules exist", "fail", "No rules found. Run --init or --generate to create rules."⟩
  let s2 : Nat := if hasCursorrules && hasMdc then 5 else if !hasCursorrules then 10 else 0
  let c2 : CheckRes :=
    if hasCursorrules && hasMdc then
      ⟨"No legacy .cursorrules", "warn",
        ".cursorrules exists alongside .mdc rules — may cause conflicts. Consider removing it."⟩
    else if !hasCursorrules then
      ⟨"No legacy .cursorrules", "pass", "Good — using modern .mdc format only"⟩
    else
      ⟨"No legacy .cursorrules", "warn", "Using legacy .cursorrules — run --migrate to convert"⟩
  let lint := lintProjectS dir e2.2
  let errors := countSev lint.1 .error
  let warnings := countSev lint.1 .warning
  let s3 : Nat :=
    if errors == 0 && warnings == 0 then 30
    else if errors == 0 then 20
    else 10 - 2 * errors
  let c3 : CheckRes :=
    if errors == 0 && warnings == 0 then
      ⟨"Lint checks", "pass", "All rules pass lint checks"⟩
    else if errors == 0 then
      ⟨"Lint checks", "warn",
        toString warnings ++ " warning" ++ plural warnings ++ " found. Run cursor-lint to see details."⟩
    else
      ⟨"Lint checks", "fail",
        toString errors ++ " error" ++ plural errors ++ ", " ++ toString warnings
          ++ " warning" ++ plural warnings ++ ". Run cursor-lint to fix."⟩
  let st := statsTokensS dir lint.2
  let totalTokens := st.1
  let s4 : Nat :=
    if totalTokens == 0 then 0
    else if totalTokens < 2000 then 15
    else if totalTokens < 5000 then 10
    else 5
  let c4 : CheckRes :=
    if totalTokens == 0 then
      ⟨"Token budget", "info", "No rules to measure"⟩
    else if totalTokens < 2000 then
      ⟨"Token budget", "pass", "~" ++ toString totalTokens ++ " tokens — well within budget"⟩
    else if totalTokens < 5000 then
      ⟨"Token budget", "warn",
        "~" ++ toString totalTokens ++ " tokens — getting heavy. Consider trimming or splitting rules."⟩
    else
      ⟨"Token budget", "fail",
        "~" ++ toString totalTokens
          ++ " tokens — very heavy. This eats into your context window every request."⟩
  let g := gapsS st.2
  let s5 : Nat :=
    if g.1.length == 0 then 15
    else if g.1.length ≤ 2 then 10
    else 5
  let c5 : CheckRes :=
    if g.1.length == 0 then
      ⟨"Coverage", "pass", "Rules cover your project file types"⟩
    else if g.1.length ≤ 2 then
      ⟨"Coverage", "warn",
        "Missing rules for: " ++ joinSep ", " g.1 ++ ". Run --generate to add them."⟩
    else
      ⟨"Coverage", "fail",
        "Missing rules for: " ++ joinSep ", " g.1 ++ ". Run --generate to add them."⟩
  let sk1 := hasSkillsDirS (dir ++ "/.claude/skills") g.2
  let sk2 := hasSkillsDirS (dir ++ "/.cursor/skills") sk1.2
  let sk3 := hasSkillsDirS (dir ++ "/skills") sk2.2
  let hasSkills := sk1.1 || sk2.1 || sk3.1
  let s6 : Nat := if hasSkills then 10 else 5
  let c6 : CheckRes :=
    if hasSkills then
      ⟨"Agent skills", "pass", "Skills directory found"⟩
    else
      ⟨"Agent skills", "info",
        "No agent skills found. Skills are optional but can improve agent behavior for complex workflows."⟩
  (finishReport [c1, c2, c3, c4, c5, c6] (s1 + s2 + s3 + s4 + s5 + s6), sk3.2)

/-! ## Predicates used by the claim statements -/

/-- Whether a header line contains a colon (lines without one are
skipped by both parsers before any further check). -/
def hasColon (line : String) : Bool := (firstIdxOfSub [':'] line.data).isSome

/-- Recognizer for the glob-syntax error issue of src/index.js. -/
def isGlobIssueMdc (i : Issue) : Bool :=
  i.severity == .error &&
    i.message == "Globs should be YAML array, not comma-separated string"

/-- Recognizer for the glob-syntax error issue of the standalone
linter. -/
def isGlobIssueLint (i : Issue) : Bool :=
  i.severity == .error &&
    i.message == "Bad glob syntax: use YAML array, not comma-separated string"

/-- The shared-line count of the redundancy detector for one ordered
pair. -/
def overlapCount (a b : Rule) : Nat :=
  (bodyLineSet a.body).countP (fun l => (bodyLineSet b.body).contains l)

/-- The overlap percentage (as an exact rational) of the redundancy
detector for one ordered pair. -/
def overlapQ (a b : Rule) : ℚ :=
  (overlapCount a b : ℚ) /
    (min (bodyLineSet a.body).length (bodyLineSet b.body).length : ℚ)

/-- Recognizer for an error-severity length issue (only the length check
produces messages starting with this prefix). -/
def isLenErr (i : Issue) : Bool :=
  i.severity == .error && strStartsWith i.message "File is "

/-- Recognizer for a warning-severity length issue. -/
def isLenWarn (i : Issue) : Bool :=
  i.severity == .warning && strStartsWith i.message "File is "

/-! ## Helper lemmas about the string primitives -/

theorem isPrefixOfL_iff (p l : List Char) :
    isPrefixOfL p l = true ↔ ∃ t, l = p ++ t := by
  induction p generalizing l with
  | nil => simp [isPrefixOfL]
  | cons a as ih =>
      cases l with
      | nil => simp [isPrefixOfL]
      | cons b bs =>
          simp only [isPrefixOfL, Bool.and_eq_true, beq_iff_eq, ih, List.cons_append,
            List.cons.injEq]
          constructor
          · rintro ⟨rfl, t, rfl⟩; exact ⟨t, rfl, rfl⟩
          · rintro ⟨t, rfl, rfl⟩; exact ⟨rfl, t, rfl⟩

theorem isSome_map_add (o : Option Nat) : (o.map (· + 1)).isSome = o.isSome := by
  cases o <;> rfl

theorem firstIdxOfSub_isSome_iff (n h : List Char) :
    (firstIdxOfSub n h).isSome = true ↔ ∃ pre suf, h = pre ++ n ++ suf := by
  induction h with
  | nil =>
      rw [firstIdxOfSub]
      split
      case isTrue hp =>
          simp only [Option.isSome_some, true_iff]
          obtain ⟨t, ht⟩ := (isPrefixOfL_iff _ _).1 hp
          have hn : n = [] := by
            cases n with
            | nil => rfl
            | cons a as => exact absurd ht (by simp)
          exact ⟨[], [], by simp [hn]⟩
      case isFalse hp =>
          simp only [Option.isSome_none, Bool.false_eq_true, false_iff]
          rintro ⟨pre, suf, he⟩
          rcases List.append_eq_nil.1 he.symm with ⟨h12, h3⟩
          rcases List.append_eq_nil.1 h12 with ⟨h1, h2⟩
          exact hp ((isPrefixOfL_iff _ _).2 ⟨[], by simp [h2]⟩)
  | cons c rest ih =>
      rw [firstIdxOfSub]
      split
      case isTrue hp =>
          obtain ⟨t, ht⟩ := (isPrefixOfL_iff _ _).1 hp
          simp only [Option.isSome_some, true_iff]
          exact ⟨[], t, by simpa using ht⟩
      case isFalse hp =>
          rw [isSome_map_add, ih]
          constructor
          · rintro ⟨pre, suf, rfl⟩; exact ⟨c :: pre, suf, rfl⟩
          · rintro ⟨pre, suf, he⟩
            cases pre with
            | nil =>
                refine absurd ((isPrefixOfL_iff _ _).2 ⟨suf, ?_⟩) hp
                simpa using he
            | cons c' pre' =>
                rw [List.cons_append, List.cons_append] at he
                injection he with h1 h2
                exact ⟨pre', suf, h2⟩

theorem containsStr_iff (s t : String) :
    containsStr s t = true ↔ ∃ pre suf, s.data = pre ++ t.data ++ suf := by
  rw [containsStr]; exact firstIdxOfSub_isSome_iff _ _

theorem containsStr_trans {s t u : String} (h1 : containsStr s t = true)
    (h2 : containsStr t u = true) : containsStr s u = true := by
  rw [containsStr_iff] at h1 h2 ⊢
  obtain ⟨p1, s1, e1⟩ := h1
  obtain ⟨p2, s2, e2⟩ := h2
  exact ⟨p1 ++ p2, s2 ++ s1, by rw [e1, e2]; simp⟩

theorem containsStr_toLower {s t : String} (h : containsStr s t = true) :
    containsStr (jsToLower s) (jsToLower t) = true := by
  rw [containsStr_iff] at h ⊢
  obtain ⟨pre, suf, e⟩ := h
  exact ⟨pre.map Char.toLower, suf.map Char.toLower, by simp [jsToLower, e]⟩

theorem joinSep_segment {sep : String} {l : List String} {s : String}
    (hmem : s ∈ l) : ∃ pre suf, (joinSep sep l).data = pre ++ s.data ++ suf := by
  induction l with
  | nil => cases hmem
  | cons x rest ih =>
      cases rest with
      | nil =>
          obtain rfl : s = x := by simpa using hmem
          exact ⟨[], [], by simp [joinSep]⟩
      | cons y rest' =>
          rcases List.mem_cons.1 hmem with rfl | hmem'
          · exact ⟨[], (sep ++ joinSep sep (y :: rest')).data, by simp [joinSep]⟩
          · obtain ⟨pre, suf, he⟩ := ih hmem'
            exact ⟨(x ++ sep).data ++ pre, suf, by simp [joinSep, he]⟩

theorem containsStr_joinSep {sep : String} {l : List String} {s u : String}
    (hmem : s ∈ l) (h : containsStr s u = true) :
    containsStr (joinSep sep l) u = true := by
  rw [containsStr_iff] at h ⊢
  obtain ⟨p1, s1, e1⟩ := h
  obtain ⟨p2, s2, e2⟩ := joinSep_segment hmem
  exact ⟨p2 ++ p1, s1 ++ s2, by rw [e2, e1]; simp⟩

/-! ## Helper lemmas about the lint building blocks -/

theorem mem_vagueIssues_shape {pats : List String} {content : String} {i : Issue}
    (h : i ∈ vagueIssues pats content) :
    ∃ p idx, i = { severity := .warning,
                   message := "Vague rule detected: \"" ++ p ++ "\"",
                   line := some idx } := by
  rw [vagueIssues, List.mem_filterMap] at h
  obtain ⟨p, _, he⟩ := h
  split at he
  · exact absurd he (by simp)
  · rw [Option.some.injEq] at he
    exact ⟨p, _, he.symm⟩

theorem countP_vague_zero (pats : List String) (content : String) (p : Issue → Bool)
    (hp : ∀ pat idx,
      p { severity := .warning, message := "Vague rule detected: \"" ++ pat ++ "\"",
          line := some idx } = false) :
    (vagueIssues pats content).countP p = 0 := by
  rw [List.countP_eq_zero]
  intro i hi
  obtain ⟨pat, idx, rfl⟩ := mem_vagueIssues_shape hi
  simp [hp pat idx]

theorem countP_if_singleton {c : Prop} [Decidable c] (x : Issue) (p : Issue → Bool)
    (hx : p x = false) : (if c then [x] else []).countP p = 0 := by
  split <;> simp [hx]

theorem not_mem_if_singleton {c : Prop} [Decidable c] {x y : Issue}
    (hx : y ≠ x) : y ∉ (if c then [x] else []) := by
  split <;> simp [hx]

/-! ## Helper lemmas about the tri-state parser -/

theorem parseLinesGo_none_iff (allLines : List String) (rest : List String) (acc : HeaderData) :
    parseLinesGo allLines rest acc = none ↔
      ∃ line ∈ rest, hasColon line = true ∧ indentBad allLines line = true := by
  induction rest generalizing acc with
  | nil => simp [parseLinesGo]
  | cons line rest ih =>
      rw [parseLinesGo]
      cases hc : firstIdxOfSub [':'] line.data with
      | none =>
          rw [ih]
          constructor
          · rintro ⟨l, hl, h1, h2⟩; exact ⟨l, List.mem_cons_of_mem _ hl, h1, h2⟩
          · rintro ⟨l, hl, h1, h2⟩
            rcases List.mem_cons.1 hl with rfl | hl'
            · rw [hasColon, hc] at h1; exact absurd h1 (by simp)
            · exact ⟨l, hl', h1, h2⟩
      | some ci =>
          by_cases hb : indentBad allLines line = true
          · simp only [hb, if_true]
            simp only [true_iff]
            exact ⟨line, List.mem_cons_self _ _, by simp [hasColon, hc], hb⟩
          · rw [Bool.not_eq_true] at hb
            simp only [hb, Bool.false_eq_true, if_false]
            rw [ih]
            constructor
            · rintro ⟨l, hl, h1, h2⟩; exact ⟨l, List.mem_cons_of_mem _ hl, h1, h2⟩
            · rintro ⟨l, hl, h1, h2⟩
              rcases List.mem_cons.1 hl with rfl | hl'
              · rw [hb] at h2; exact absurd h2 (by simp)
              · exact ⟨l, hl', h1, h2⟩

theorem head_ne_badGlob (s : String) (hs : s.data.head? = some 'F') :
    (s == "Bad glob syntax: use YAML array, not comma-separated string") = false := by
  refine beq_eq_false_iff_ne.2 (fun he => ?_)
  rw [he] at hs
  exact absurd hs (by decide)

theorem isGlobIssueLint_lenErr (n : Nat) : isGlobIssueLint (lenErrIssue n) = false := by
  rw [isGlobIssueLint, head_ne_badGlob ((lenErrIssue n).message) rfl]
  simp

theorem isGlobIssueLint_lenWarn (n : Nat) : isGlobIssueLint (lenWarnIssue n) = false := rfl

theorem countP_length_globLint (n : Nat) :
    (lengthIssues n).countP isGlobIssueLint = 0 := by
  rw [lengthIssues]
  split
  · simp [isGlobIssueLint_lenErr]
  · split
    · simp [isGlobIssueLint_lenWarn]
    · rfl

/-! ## Structural rewriting lemmas for the lint engines -/

theorem lintMdcFile_data {content : String} {d : HeaderData}
    (h : parseFrontmatter content = ⟨true, some d, none⟩) :
    lintMdcFile content = mdcDataIssues d ++ vagueIssues VAGUE_PATTERNS_INDEX content := by
  rw [lintMdcFile, h]

theorem mdcIssuesLint_data {content : String} {d : HeaderData}
    (h : parseMdcFrontmatter content = some d) :
    mdcIssuesLint content = mdcDataIssuesLint d := by
  rw [mdcIssuesLint, h]

theorem lintFile_mdc {fp : String} (content : String) (h5 : pathExtname fp = ".mdc") :
    lintFile fp content =
      (if (pathBasename fp == ".cursorrules") = true then [cursorrulesWarnIssue] else []) ++
      mdcIssuesLint content ++ vagueIssues VAGUE_PATTERNS_LINT content ++
      lengthIssues (jsSplitNl content).length := by
  rw [lintFile, h5]
  rfl

theorem alwaysApplyCheck_missing {d : HeaderData}
    (h : lookupKey "alwaysApply" d = none) :
    alwaysApplyCheck d = [missingAlwaysIssue] := by
  rw [alwaysApplyCheck, h]
  rfl

theorem globsCheckMdc_comma {d : HeaderData} {g : String}
    (hg : lookupKey "globs" d = some (.str g)) (hgne : (g == "") = false)
    (hc : containsStr g "," = true) : globsCheckMdc d = [globIssueMdc] := by
  rw [globsCheckMdc, hg]
  show (if (!(g == "") && containsStr g ",") = true then [globIssueMdc] else []) = _
  rw [hgne, hc]
  rfl

theorem globsCheckLint_comma {d : HeaderData} {g : String}
    (hg : lookupKey "globs" d = some (.str g)) (hgne : (g == "") = false)
    (hc : containsStr g "," = true) :
    globsCheckLint d =
      (if strStartsWith g "[" = true then [] else [globIssueLint]) := by
  rw [globsCheckLint, hg]
  show (if (!(g == "") && (containsStr g "," && !(strStartsWith g "["))) = true
      then [globIssueLint] else []) = _
  rw [hgne, hc]
  by_cases hbr : strStartsWith g "[" = true
  · rw [hbr]
    rfl
  · rw [Bool.not_eq_true] at hbr
    rw [hbr]
    rfl

theorem countP_alwaysApplyCheck (d : HeaderData) (p : Issue → Bool)
    (hp : p missingAlwaysIssue = false) : (alwaysApplyCheck d).countP p = 0 := by
  rw [alwaysApplyCheck]
  exact countP_if_singleton _ _ hp

theorem countP_descriptionCheck (d : HeaderData) (p : Issue → Bool)
    (hp : p missingDescIssue = false) : (descriptionCheck d).countP p = 0 := by
  rw [descriptionCheck]
  exact countP_if_singleton _ _ hp

theorem countP_globsCheckLint (d : HeaderData) (p : Issue → Bool)
    (hp : p globIssueLint = false) : (globsCheckLint d).countP p = 0 := by
  rw [globsCheckLint]
  split
  · exact countP_if_singleton _ _ hp
  · rfl

theorem countP_globsCheckMdc (d : HeaderData) (p : Issue → Bool)
    (hp : p globIssueMdc = false) : (globsCheckMdc d).countP p = 0 := by
  rw [globsCheckMdc]
  split
  · exact countP_if_singleton _ _ hp
  · rfl

theorem countP_cursorrulesIf (c : Prop) [Decidable c] (p : Issue → Bool)
    (hp : p cursorrulesWarnIssue = false) :
    (if c then [cursorrulesWarnIssue] else []).countP p = 0 :=
  countP_if_singleton _ _ hp

theorem countP_mdcIssuesLint_zero (content : String) (p : Issue → Bool)
    (h1 : p missingFMIssue = false) (h2 : p missingAlwaysIssue = false)
    (h3 : p missingDescIssue = false) (h4 : p globIssueLint = false) :
    (mdcIssuesLint content).countP p = 0 := by
  rw [mdcIssuesLint]
  split
  · simp [h1]
  · rw [mdcDataIssuesLint, List.countP_append, List.countP_append,
      countP_alwaysApplyCheck _ _ h2, countP_descriptionCheck _ _ h3,
      countP_globsCheckLint _ _ h4]

theorem findConflicts_pair (a b : Rule) : findConflicts [a, b] = conflictFor a b := by
  simp [findConflicts, conflictsAgainst]

theorem findRedundancy_pair (a b : Rule) : findRedundancy [a, b] = redundantFor a b := by
  simp [findRedundancy, redundantAgainst]

theorem countP_singleton_true {x : Issue} {p : Issue → Bool} (h : p x = true) :
    ([x] : List Issue).countP p = 1 := by
  simp [List.countP_cons, h]

theorem countP_singleton_false {x : Issue} {p : Issue → Bool} (h : p x = false) :
    ([x] : List Issue).countP p = 0 := by
  simp [List.countP_cons, h]

theorem countP_if_zero {c : Prop} [Decidable c] {l : List Issue} {p : Issue → Bool}
    (h : l.countP p = 0) : (if c then l else []).countP p = 0 := by
  split
  · exact h
  · rfl

/-! ## State-preservation lemmas: every file-system primitive and every
composite of the doctor pipeline returns the snapshot unchanged -/

theorem existsS_state (p : String) (fs : FS) : (existsS p fs).2 = fs := rfl

theorem readdirS_state (p : String) (fs : FS) : (readdirS p fs).2 = fs := rfl

theorem readFileS_state (p : String) (fs : FS) : (readFileS p fs).2 = fs := rfl

theorem isDirS_state (p : String) (fs : FS) : (isDirS p fs).2 = fs := rfl

theorem gapsS_state (fs : FS) : (gapsS fs).2 = fs := rfl

theorem lintMdcFilesS_state (ps : List String) (fs : FS) :
    (lintMdcFilesS ps fs).2 = fs := by
  induction ps generalizing fs with
  | nil => rfl
  | cons p rest ih => simp [lintMdcFilesS, readFileS, ih]

theorem lintProjectS_state (dir : String) (fs : FS) : (lintProjectS dir fs).2 = fs := by
  simp only [lintProjectS, existsS, readFileS, isDirS, readdirS]
  split_ifs <;> simp [lintMdcFilesS_state]

theorem sumTokensS_state (ps : List String) (fs : FS) : (sumTokensS ps fs).2 = fs := by
  induction ps generalizing fs with
  | nil => rfl
  | cons p rest ih => simp [sumTokensS, readFileS, ih]

theorem statsTokensS_state (dir : String) (fs : FS) : (statsTokensS dir fs).2 = fs := by
  simp only [statsTokensS, existsS, readFileS, readdirS]
  split_ifs <;> simp [sumTokensS_state]

theorem skillsEntriesS_state (sd : String) (es : List String) (fs : FS) :
    (skillsEntriesS sd es fs).2 = fs := by
  induction es generalizing fs with
  | nil => rfl
  | cons e rest ih =>
      simp only [skillsEntriesS, isDirS, existsS]
      split_ifs <;> simp [ih]

theorem hasSkillsDirS_state (sd : String) (fs : FS) : (hasSkillsDirS sd fs).2 = fs := by
  simp only [hasSkillsDirS, existsS, readdirS]
  split_ifs <;> simp [skillsEntriesS_state]

theorem doctorRun_state (dir : String) (fs : FS) : (doctorRun dir fs).2 = fs := by
  simp only [doctorRun]
  simp [existsS_state, readdirS_state, gapsS_state, statsTokensS_state,
    lintProjectS_state, hasSkillsDirS_state, existsS, readdirS]

/-! ## Claim theorems -/

/-- C3: for every input text the header parser `parseFrontmatter` returns a
result (it is total by construction, the `try`/`catch` of the source being
dead code), and the result satisfies the tri-state invariant: it is either
`found = false` with null data and error, or `found = true` with data and no
error, or `found = true` with no data and the indentation error — so
`found = false` implies `data = null ∧ error = null`, and a non-null error
implies `found = true ∧ data = null`. -/
theorem C3_parseFrontmatter_tristate (content : String) :
    parseFrontmatter content = ⟨false, none, none⟩ ∨
    (∃ d, parseFrontmatter content = ⟨true, some d, none⟩) ∨
    parseFrontmatter content = ⟨true, none, some "Invalid YAML indentation"⟩ := by
  unfold parseFrontmatter
  cases hE : extractHeader content with
  | none => exact Or.inl rfl
  | some inner =>
      cases hp : parseLinesGo (jsSplitNl inner) (jsSplitNl inner) [] with
      | none => refine Or.inr (Or.inr ?_); simp [hp]
      | some d => refine Or.inr (Or.inl ⟨d, ?_⟩); simp [hp]

/-- C4 (amended): the parser returns `found = true, data = null,
error = "Invalid YAML indentation"` exactly when the extracted header block
contains a line that (a) contains a colon, (b) is indented and not a list
item, and (c) whose preceding line — the one before the first occurrence of
the line's text — exists, is non-empty, and does not end with a colon.  In
particular the error is never returned when every such line's predecessor
ends with a colon; but contrary to the original claim, an indented
continuation line without a colon never triggers the error (see the
counterexample). -/
theorem C4_indent_error_iff (content : String) :
    (parseFrontmatter content).error = some "Invalid YAML indentation" ↔
      ∃ inner, extractHeader content = some inner ∧
        ∃ line ∈ jsSplitNl inner, hasColon line = true ∧
          indentBad (jsSplitNl inner) line = true := by
  unfold parseFrontmatter
  cases hE : extractHeader content with
  | none => simp
  | some inner =>
      cases hp : parseLinesGo (jsSplitNl inner) (jsSplitNl inner) [] with
      | none =>
          simp only [hp]
          constructor
          · intro _
            exact ⟨inner, rfl, (parseLinesGo_none_iff _ _ _).1 hp⟩
          · intro _; trivial
      | some d =>
          simp only [hp]
          constructor
          · intro h; exact absurd h (by simp)
          · rintro ⟨inner', hinner, hex⟩
            rw [Option.some.injEq] at hinner
            subst hinner
            have hn := (parseLinesGo_none_iff (jsSplitNl inner) (jsSplitNl inner) []).2 hex
            rw [hp] at hn
            cases hn

/-- C4 counterexample: the header block `foo: bar` then the indented
non-list continuation line `  baz` whose preceding line does not end with a
colon — the original claim requires the parser to abort with the
indentation error here, but the colon-free continuation line is skipped
before the indentation guard runs and the parse succeeds. -/
theorem C4_counterexample :
    ("  baz" : String) ∈ jsSplitNl "foo: bar\n  baz" ∧
    jsIndentNonList ("  baz" : String).data = true ∧
    prevLineOf (jsSplitNl "foo: bar\n  baz") "  baz" = some "foo: bar" ∧
    strEndsWith "foo: bar" ":" = false ∧
    parseFrontmatter "---\nfoo: bar\n  baz\n---" =
      ⟨true, some [("foo", HVal.str "bar")], none⟩ := by
  refine ⟨?_, ?_, ?_, ?_, ?_⟩ <;> decide

/-- C2: for every modern document whose header parses successfully (found,
no error) and whose header data omits `alwaysApply`, linting the document —
with either engine — yields at least one error-severity issue whose message
contains the substring "alwaysApply". -/
theorem C2_missing_alwaysApply_error (content fp : String) (d d₂ : HeaderData)
    (h1 : parseFrontmatter content = ⟨true, some d, none⟩)
    (h2 : lookupKey "alwaysApply" d = none)
    (h3 : parseMdcFrontmatter content = some d₂)
    (h4 : lookupKey "alwaysApply" d₂ = none)
    (h5 : pathExtname fp = ".mdc") :
    (∃ i ∈ lintMdcFile content,
      i.severity = .error ∧ containsStr i.message "alwaysApply" = true) ∧
    (∃ i ∈ lintFile fp content,
      i.severity = .error ∧ containsStr i.message "alwaysApply" = true) := by
  constructor
  · refine ⟨missingAlwaysIssue, ?_, rfl, by decide⟩
    rw [lintMdcFile_data h1, mdcDataIssues, alwaysApplyCheck_missing h2]
    simp
  · refine ⟨missingAlwaysIssue, ?_, rfl, by decide⟩
    rw [lintFile_mdc content h5, mdcIssuesLint_data h3, mdcDataIssuesLint,
      alwaysApplyCheck_missing h4]
    simp

/-- C2 witness: a concrete modern document with a parsed header that omits
`alwaysApply`, on which both engines report the error. -/
theorem C2_witness :
    (∃ i ∈ lintMdcFile "---\ndescription: hi\n---\nSomething specific.",
      i.severity = .error ∧ containsStr i.message "alwaysApply" = true) ∧
    (∃ i ∈ lintFile "r.mdc" "---\ndescription: hi\n---\nSomething specific.",
      i.severity = .error ∧ containsStr i.message "alwaysApply" = true) :=
  C2_missing_alwaysApply_error "---\ndescription: hi\n---\nSomething specific."
    "r.mdc" [("description", .str "hi")] [("description", .str "hi")]
    (by decide) (by decide) (by decide) (by decide) (by decide)

/-- C1 (amended): for a modern document whose parsed header carries a
string `globs` value containing a comma, the standalone linter (part_003)
emits exactly one glob-syntax error exactly when the value is not wrapped
in brackets — but `lintMdcFile` of src/index.js emits exactly one
glob-syntax error whenever the comma is present, bracketed or not (its
check has no bracket exemption), so the bracket half of the claim holds
only for the standalone engine. -/
theorem C1_glob_comma_counts (content fp : String) (d d₂ : HeaderData) (g g₂ : String)
    (h1 : parseFrontmatter content = ⟨true, some d, none⟩)
    (hg : lookupKey "globs" d = some (.str g))
    (hc : containsStr g "," = true)
    (h3 : parseMdcFrontmatter content = some d₂)
    (hg₂ : lookupKey "globs" d₂ = some (.str g₂))
    (hc₂ : containsStr g₂ "," = true)
    (h5 : pathExtname fp = ".mdc") :
    (lintMdcFile content).countP isGlobIssueMdc = 1 ∧
    (lintFile fp content).countP isGlobIssueLint =
      (if strStartsWith g₂ "[" then 0 else 1) := by
  have hgne : (g == "") = false := by
    rcases eq_or_ne g "" with rfl | hne
    · exact absurd hc (by decide)
    · exact beq_eq_false_iff_ne.2 hne
  have hgne₂ : (g₂ == "") = false := by
    rcases eq_or_ne g₂ "" with rfl | hne
    · exact absurd hc₂ (by decide)
    · exact beq_eq_false_iff_ne.2 hne
  constructor
  · rw [lintMdcFile_data h1, List.countP_append,
      countP_vague_zero VAGUE_PATTERNS_INDEX content isGlobIssueMdc (fun pat idx => rfl),
      mdcDataIssues, List.countP_append, List.countP_append,
      countP_alwaysApplyCheck d isGlobIssueMdc (by decide),
      countP_descriptionCheck d isGlobIssueMdc (by decide),
      globsCheckMdc_comma hg hgne hc]
    decide
  · rw [lintFile_mdc content h5, List.countP_append, List.countP_append,
      List.countP_append,
      countP_vague_zero VAGUE_PATTERNS_LINT content isGlobIssueLint (fun pat idx => rfl),
      countP_length_globLint,
      countP_cursorrulesIf _ isGlobIssueLint (by decide),
      mdcIssuesLint_data h3, mdcDataIssuesLint, List.countP_append, List.countP_append,
      countP_alwaysApplyCheck d₂ isGlobIssueLint (by decide),
      countP_descriptionCheck d₂ isGlobIssueLint (by decide),
      globsCheckLint_comma hg₂ hgne₂ hc₂]
    by_cases hbr : strStartsWith g₂ "[" = true
    · rw [hbr]
      decide
    · rw [Bool.not_eq_true] at hbr
      rw [hbr]
      decide

/-- C1 counterexample: a bracketed comma-separated `globs` string on which
`lintMdcFile` of src/index.js still emits the glob-syntax error, refuting
the claim that a bracketed value emits no such error. -/
theorem C1_counterexample :
    (lookupKey "globs"
        [("globs", HVal.str "[\"*.ts\", \"*.tsx\"]"), ("alwaysApply", HVal.bool true),
         ("description", HVal.str "d")]).map (fun v =>
          match v with
          | .str s => strStartsWith s "["
          | _ => false) = some true ∧
    parseFrontmatter "---\ndescription: d\nalwaysApply: true\nglobs: [\"*.ts\", \"*.tsx\"]\n---\nbody" =
      ⟨true, some [("description", HVal.str "d"), ("alwaysApply", HVal.bool true),
        ("globs", HVal.str "[\"*.ts\", \"*.tsx\"]")], none⟩ ∧
    (lintMdcFile "---\ndescription: d\nalwaysApply: true\nglobs: [\"*.ts\", \"*.tsx\"]\n---\nbody").countP
      isGlobIssueMdc = 1 := by
  refine ⟨?_, ?_, ?_⟩ <;> decide

/-- C1 witness: a bracketed comma-separated `globs` value, on which the
standalone linter emits no glob-syntax error while src/index.js emits
exactly one. -/
theorem C1_witness :
    (lintMdcFile "---\ndescription: d\nalwaysApply: true\nglobs: [\"*.ts\", \"*.tsx\"]\n---\nbody").countP
      isGlobIssueMdc = 1 ∧
    (lintFile "r.mdc" "---\ndescription: d\nalwaysApply: true\nglobs: [\"*.ts\", \"*.tsx\"]\n---\nbody").countP
      isGlobIssueLint = 0 := by
  have h := C1_glob_comma_counts
    "---\ndescription: d\nalwaysApply: true\nglobs: [\"*.ts\", \"*.tsx\"]\n---\nbody"
    "r.mdc"
    [("description", HVal.str "d"), ("alwaysApply", HVal.bool true),
     ("globs", HVal.str "[\"*.ts\", \"*.tsx\"]")]
    [("description", HVal.str "d"), ("alwaysApply", HVal.bool true),
     ("globs", HVal.str "[\"*.ts\", \"*.tsx\"]")]
    "[\"*.ts\", \"*.tsx\"]" "[\"*.ts\", \"*.tsx\"]"
    (by decide) (by decide) (by decide) (by decide) (by decide) (by decide) (by decide)
  refine ⟨h.1, ?_⟩
  rw [h.2]
  decide

/-- C7: for every document, the length check of the standalone linter emits
exactly one error-severity length issue when the line count exceeds 300,
otherwise exactly one warning-severity length issue when it exceeds 150,
otherwise nothing — and the error and the warning never fire together. -/
theorem C7_length_check (fp content : String) :
    ((jsSplitNl content).length > 300 →
      (lintFile fp content).countP isLenErr = 1 ∧
      (lintFile fp content).countP isLenWarn = 0) ∧
    (150 < (jsSplitNl content).length → (jsSplitNl content).length ≤ 300 →
      (lintFile fp content).countP isLenErr = 0 ∧
      (lintFile fp content).countP isLenWarn = 1) ∧
    ((jsSplitNl content).length ≤ 150 →
      (lintFile fp content).countP isLenErr = 0 ∧
      (lintFile fp content).countP isLenWarn = 0) := by
  have hE : (lintFile fp content).countP isLenErr =
      (lengthIssues (jsSplitNl content).length).countP isLenErr := by
    rw [lintFile, List.countP_append, List.countP_append, List.countP_append,
      countP_cursorrulesIf _ isLenErr (by decide),
      countP_if_zero (countP_mdcIssuesLint_zero content isLenErr
        (by decide) (by decide) (by decide) (by decide)),
      countP_vague_zero VAGUE_PATTERNS_LINT content isLenErr (fun pat idx => rfl)]
    omega
  have hW : (lintFile fp content).countP isLenWarn =
      (lengthIssues (jsSplitNl content).length).countP isLenWarn := by
    rw [lintFile, List.countP_append, List.countP_append, List.countP_append,
      countP_cursorrulesIf _ isLenWarn (by decide),
      countP_if_zero (countP_mdcIssuesLint_zero content isLenWarn
        (by decide) (by decide) (by decide) (by decide)),
      countP_vague_zero VAGUE_PATTERNS_LINT content isLenWarn (fun pat idx => rfl)]
    omega
  refine ⟨fun h => ⟨?_, ?_⟩, fun h1 h2 => ⟨?_, ?_⟩, fun h => ⟨?_, ?_⟩⟩
  · rw [hE, lengthIssues,
      if_pos (show (jsSplitNl content).length > MAX_LINES_ERROR from h)]
    exact countP_singleton_true rfl
  · rw [hW, lengthIssues,
      if_pos (show (jsSplitNl content).length > MAX_LINES_ERROR from h)]
    exact countP_singleton_false rfl
  · rw [hE, lengthIssues,
      if_neg (show ¬((jsSplitNl content).length > MAX_LINES_ERROR) from by
        simp only [MAX_LINES_ERROR]; omega),
      if_pos (show (jsSplitNl content).length > MAX_LINES_WARNING from by
        simp only [MAX_LINES_WARNING]; omega)]
    exact countP_singleton_false rfl
  · rw [hW, lengthIssues,
      if_neg (show ¬((jsSplitNl content).length > MAX_LINES_ERROR) from by
        simp only [MAX_LINES_ERROR]; omega),
      if_pos (show (jsSplitNl content).length > MAX_LINES_WARNING from by
        simp only [MAX_LINES_WARNING]; omega)]
    exact countP_singleton_true rfl
  · rw [hE, lengthIssues,
      if_neg (show ¬((jsSplitNl content).length > MAX_LINES_ERROR) from by
        simp only [MAX_LINES_ERROR]; omega),
      if_neg (show ¬((jsSplitNl content).length > MAX_LINES_WARNING) from by
        simp only [MAX_LINES_WARNING]; omega)]
    rfl
  · rw [hW, lengthIssues,
      if_neg (show ¬((jsSplitNl content).length > MAX_LINES_ERROR) from by
        simp only [MAX_LINES_ERROR]; omega),
      if_neg (show ¬((jsSplitNl content).length > MAX_LINES_WARNING) from by
        simp only [MAX_LINES_WARNING]; omega)]
    rfl

/-- C7 witness: a 320-line document gets exactly the length error, a
200-line document exactly the length warning, and a one-line document
neither. -/
theorem C7_witness :
    ((lintFile "a.mdc" (joinSep "\n" (List.replicate 320 "x"))).countP isLenErr = 1 ∧
     (lintFile "a.mdc" (joinSep "\n" (List.replicate 320 "x"))).countP isLenWarn = 0) ∧
    ((lintFile "a.mdc" (joinSep "\n" (List.replicate 200 "x"))).countP isLenErr = 0 ∧
     (lintFile "a.mdc" (joinSep "\n" (List.replicate 200 "x"))).countP isLenWarn = 1) ∧
    ((lintFile "a.mdc" "short").countP isLenErr = 0 ∧
     (lintFile "a.mdc" "short").countP isLenWarn = 0) :=
  ⟨(C7_length_check "a.mdc" (joinSep "\n" (List.replicate 320 "x"))).1 (by decide),
   (C7_length_check "a.mdc" (joinSep "\n" (List.replicate 200 "x"))).2.1
     (by decide) (by decide),
   (C7_length_check "a.mdc" "short").2.2 (by decide)⟩

/-- C5: for a pair of rules where neither declares `alwaysApply` and no
glob of one overlaps any glob of the other (overlap being textual
identity, the universal wildcard, or a shared `*.ext` suffix), the
conflict detector reports nothing; and for two always-apply rules whose
bodies contain "use tabs" and "use spaces" respectively, the pair is
reported with a reason mentioning both patterns. -/
theorem C5_conflicts (a b : Rule) :
    (a.alwaysApply = false → b.alwaysApply = false →
      (∀ ga ∈ a.globs, ∀ gb ∈ b.globs, globsOverlap ga gb = false) →
      findConflicts [a, b] = []) ∧
    (a.alwaysApply = true → b.alwaysApply = true →
      containsStr a.body "use tabs" = true →
      containsStr b.body "use spaces" = true →
      ∃ c ∈ findConflicts [a, b], c.fileA = a.file ∧ c.fileB = b.file ∧
        containsStr c.reason "use tabs" = true ∧
        containsStr c.reason "use spaces" = true) := by
  constructor
  · intro ha hb hg
    have hov : (a.globs.any fun ag => b.globs.any fun bg => globsOverlap ag bg) = false := by
      rw [List.any_eq_false]
      intro ga hga
      rw [Bool.not_eq_true, List.any_eq_false]
      intro gb hgb
      rw [Bool.not_eq_true]
      exact hg ga hga gb hgb
    rw [findConflicts_pair]
    simp [conflictFor, hov, ha, hb]
  · intro ha hb hta htb
    have htaL : containsStr (jsToLower a.body) "use tabs" = true := by
      have h0 := containsStr_toLower hta
      rw [show jsToLower "use tabs" = "use tabs" from by decide] at h0
      exact h0
    have htbL : containsStr (jsToLower b.body) "use spaces" = true := by
      have h0 := containsStr_toLower htb
      rw [show jsToLower "use spaces" = "use spaces" from by decide] at h0
      exact h0
    have hmem : ("Conflicting style: \"use tabs\" vs \"use spaces\"" : String) ∈
        findContradictions (jsToLower a.body) (jsToLower b.body) := by
      rw [findContradictions]
      refine List.mem_filterMap.2 ⟨(["use tabs"], ["use spaces"]), by decide, ?_⟩
      have hcond : (patTest ["use tabs"] (jsToLower a.body) &&
            patTest ["use spaces"] (jsToLower b.body)
          || (patTest ["use spaces"] (jsToLower a.body) &&
            patTest ["use tabs"] (jsToLower b.body))) = true := by
        simp [patTest, htaL, htbL]
      rw [if_pos hcond]
      rfl
    have hlen : 0 < (findContradictions (jsToLower a.body) (jsToLower b.body)).length :=
      List.length_pos.2 (List.ne_nil_of_mem hmem)
    rw [findConflicts_pair]
    simp only [conflictFor, ha, hb, Bool.not_true, Bool.and_false, Bool.false_and,
      Bool.false_eq_true, if_false]
    rw [if_pos (show (0 < (findContradictions (jsToLower a.body)
      (jsToLower b.body)).length) from hlen)]
    refine ⟨_, List.mem_singleton_self _, rfl, rfl, ?_, ?_⟩
    · exact containsStr_joinSep hmem (by decide)
    · exact containsStr_joinSep hmem (by decide)

/-- C5 witness: a non-overlapping, non-always pair is silent, and an
always-apply tabs-versus-spaces pair is reported with both patterns in
the reason. -/
theorem C5_witness :
    findConflicts [⟨"a.mdc", "Indent with care.", ["*.ts"], false⟩,
      ⟨"b.mdc", "Prefer clarity.", ["*.py"], false⟩] = [] ∧
    ∃ c ∈ findConflicts [⟨"a.mdc", "Always use tabs here.", [], true⟩,
      ⟨"b.mdc", "Please use spaces instead.", [], true⟩],
      c.fileA = "a.mdc" ∧ c.fileB = "b.mdc" ∧
      containsStr c.reason "use tabs" = true ∧
      containsStr c.reason "use spaces" = true := by
  constructor
  · exact (C5_conflicts _ _).1 rfl rfl (by decide)
  · have h := (C5_conflicts ⟨"a.mdc", "Always use tabs here.", [], true⟩
      ⟨"b.mdc", "Please use spaces instead.", [], true⟩).2 rfl rfl
      (by decide) (by decide)
    exact h

/-- C10: for every pair of rules that the scope check does not skip, when
one body contains "never use any" and the other contains "avoid any", the
conflict detector reports the pair as conflicting — the pattern "use any"
matches as a substring inside "never use any", so two rules that agree in
forbidding the `any` type are reported as contradicting each other. -/
theorem C10_agreeing_any_rules_conflict (a b : Rule)
    (hskip : a.alwaysApply = true ∨ b.alwaysApply = true ∨
      (a.globs.any fun ag => b.globs.any fun bg => globsOverlap ag bg) = true)
    (hna : containsStr a.body "never use any" = true)
    (hav : containsStr b.body "avoid any" = true) :
    ∃ c ∈ findConflicts [a, b], c.fileA = a.file ∧ c.fileB = b.file ∧
      containsStr c.reason "use any" = true := by
  have hnaL : containsStr (jsToLower a.body) "never use any" = true := by
    have h0 := containsStr_toLower hna
    rw [show jsToLower "never use any" = "never use any" from by decide] at h0
    exact h0
  have huaL : containsStr (jsToLower a.body) "use any" = true :=
    containsStr_trans hnaL (by decide)
  have havL : containsStr (jsToLower b.body) "avoid any" = true := by
    have h0 := containsStr_toLower hav
    rw [show jsToLower "avoid any" = "avoid any" from by decide] at h0
    exact h0
  have hmem : ("Conflicting style: \"use any\" vs \"never use any|avoid any|no any\"" : String) ∈
      findContradictions (jsToLower a.body) (jsToLower b.body) := by
    rw [findContradictions]
    refine List.mem_filterMap.2
      ⟨(["use any"], ["never use any", "avoid any", "no any"]), by decide, ?_⟩
    have hcond : (patTest ["use any"] (jsToLower a.body) &&
          patTest ["never use any", "avoid any", "no any"] (jsToLower b.body)
        || (patTest ["never use any", "avoid any", "no any"] (jsToLower a.body) &&
          patTest ["use any"] (jsToLower b.body))) = true := by
      simp [patTest, huaL, havL]
    rw [if_pos hcond]
    rfl
  have hlen : 0 < (findContradictions (jsToLower a.body) (jsToLower b.body)).length :=
    List.length_pos.2 (List.ne_nil_of_mem hmem)
  have hcondskip : ((!(a.globs.any fun ag => b.globs.any fun bg => globsOverlap ag bg)) &&
      !a.alwaysApply && !b.alwaysApply) = false := by
    rcases hskip with h | h | h <;> simp [h]
  rw [findConflicts_pair]
  simp only [conflictFor, hcondskip, Bool.false_eq_true, if_false]
  rw [if_pos (show (0 < (findContradictions (jsToLower a.body)
    (jsToLower b.body)).length) from hlen)]
  exact ⟨_, List.mem_singleton_self _, rfl, rfl, containsStr_joinSep hmem (by decide)⟩

/-- C10 witness: two always-apply rules that both forbid the `any` type
are reported as conflicting with a reason mentioning "use any". -/
theorem C10_witness :
    ∃ c ∈ findConflicts [⟨"a.mdc", "You should never use any in code.", [], true⟩,
      ⟨"b.mdc", "Strictly avoid any in signatures.", [], true⟩],
      c.fileA = "a.mdc" ∧ c.fileB = "b.mdc" ∧ containsStr c.reason "use any" = true :=
  C10_agreeing_any_rules_conflict
    ⟨"a.mdc", "You should never use any in code.", [], true⟩
    ⟨"b.mdc", "Strictly avoid any in signatures.", [], true⟩
    (Or.inl rfl) (by decide) (by decide)

/-- C6: the redundancy detector skips a pair when either normalized line
set (trimmed lines longer than 10 characters) is empty; otherwise it
reports the pair exactly when the intersection-over-smaller-set ratio
exceeds 0.6, carrying the rounded percentage and the shared-line count;
and two rules with identical bodies having at least one such line are
reported with `overlapPct = 100`. -/
theorem C6_redundancy (a b : Rule) :
    (bodyLineSet a.body = [] ∨ bodyLineSet b.body = [] →
      findRedundancy [a, b] = []) ∧
    (bodyLineSet a.body ≠ [] → bodyLineSet b.body ≠ [] →
      findRedundancy [a, b] =
        (if overlapQ a b > 6 / 10 then
          [⟨a.file, b.file, jsRound (overlapQ a b * 100), overlapCount a b⟩]
        else [])) ∧
    (a.body = b.body → bodyLineSet a.body ≠ [] →
      findRedundancy [a, b] = [⟨a.file, b.file, 100, (bodyLineSet a.body).length⟩]) := by
  refine ⟨?_, ?_, ?_⟩
  · intro h
    rw [findRedundancy_pair]
    rcases h with h | h <;> simp [redundantFor, h]
  · intro ha hb
    rw [findRedundancy_pair, redundantFor]
    have h1 : ((bodyLineSet a.body).length == 0) = false :=
      beq_eq_false_iff_ne.2 (fun h => ha (List.length_eq_zero.1 h))
    have h2 : ((bodyLineSet b.body).length == 0) = false :=
      beq_eq_false_iff_ne.2 (fun h => hb (List.length_eq_zero.1 h))
    simp only [h1, h2, Bool.or_self, Bool.or_false, Bool.false_eq_true, if_false]
    rfl
  · intro hab ha
    rw [findRedundancy_pair, redundantFor, hab]
    rw [hab] at ha
    have hne : (bodyLineSet b.body).length ≠ 0 :=
      fun h => ha (List.length_eq_zero.1 h)
    have hbeq : ((bodyLineSet b.body).length == 0) = false :=
      beq_eq_false_iff_ne.2 hne
    have hcnt : (bodyLineSet b.body).countP
        (fun l => (bodyLineSet b.body).contains l) = (bodyLineSet b.body).length := by
      rw [List.countP_eq_length]
      intro x hx
      simpa using hx
    simp only [hbeq, Bool.or_self, Bool.false_eq_true, if_false]
    rw [hcnt, min_self]
    have hq : ((bodyLineSet b.body).length : ℚ) / ((bodyLineSet b.body).length : ℚ) = 1 :=
      div_self (by exact_mod_cast hne)
    rw [hq, if_pos (by norm_num : (1 : ℚ) > 6 / 10), one_mul]
    have h100 : jsRound (100 : ℚ) = 100 := by
      rw [jsRound, Int.floor_eq_iff]
      norm_num
    rw [h100]

/-- C6 witness: two rules with identical bodies and one qualifying line
each are reported as a fully redundant pair with 100 percent overlap. -/
theorem C6_witness :
    findRedundancy [⟨"a.mdc", "This duplicated line is long.\nok", [], true⟩,
      ⟨"b.mdc", "This duplicated line is long.\nok", [], true⟩] =
      [⟨"a.mdc", "b.mdc", 100, 1⟩] := by
  have h := (C6_redundancy ⟨"a.mdc", "This duplicated line is long.\nok", [], true⟩
    ⟨"b.mdc", "This duplicated line is long.\nok", [], true⟩).2.2 rfl (by decide)
  rw [h]
  decide

/-- C8: for every snapshot, the aggregate report of the doctor pipeline has
`maxScore = 100` (the six weighted checks contribute 20+10+30+15+15+10, so
the grade computation never divides by zero), its percentage is the rounding
of `100 × score / maxScore`, and its grade follows the A/B/C/D/F thresholds
on the raw (unrounded) percentage. -/
theorem C8_score_grade (dir : String) (fs : FS) :
    ((doctorRun dir fs).1).maxScore = 100 ∧
    ((doctorRun dir fs).1).percentage =
      jsRound (100 * (((doctorRun dir fs).1).score : ℚ) /
        ((((doctorRun dir fs).1).maxScore : Nat) : ℚ)) ∧
    ((doctorRun dir fs).1).grade =
      (if 100 * (((doctorRun dir fs).1).score : ℚ) /
          ((((doctorRun dir fs).1).maxScore : Nat) : ℚ) ≥ 90 then "A"
       else if 100 * (((doctorRun dir fs).1).score : ℚ) /
          ((((doctorRun dir fs).1).maxScore : Nat) : ℚ) ≥ 75 then "B"
       else if 100 * (((doctorRun dir fs).1).score : ℚ) /
          ((((doctorRun dir fs).1).maxScore : Nat) : ℚ) ≥ 60 then "C"
       else if 100 * (((doctorRun dir fs).1).score : ℚ) /
          ((((doctorRun dir fs).1).maxScore : Nat) : ℚ) ≥ 40 then "D"
       else "F") := by
  obtain ⟨cs, s, hr⟩ : ∃ cs s, (doctorRun dir fs).1 = finishReport cs s := ⟨_, _, rfl⟩
  rw [hr]
  have hpq : ((s : ℚ) / (((20 + 10 + 30 + 15 + 15 + 10 : Nat) : Nat) : ℚ)) * 100 =
      100 * (s : ℚ) / (((20 + 10 + 30 + 15 + 15 + 10 : Nat) : Nat) : ℚ) := by
    push_cast
    ring
  refine ⟨rfl, ?_, ?_⟩
  · exact congrArg jsRound hpq
  · show (if ((s : ℚ) / (((20 + 10 + 30 + 15 + 15 + 10 : Nat) : Nat) : ℚ)) * 100 ≥ 90
        then "A"
      else if ((s : ℚ) / (((20 + 10 + 30 + 15 + 15 + 10 : Nat) : Nat) : ℚ)) * 100 ≥ 75
        then "B"
      else if ((s : ℚ) / (((20 + 10 + 30 + 15 + 15 + 10 : Nat) : Nat) : ℚ)) * 100 ≥ 60
        then "C"
      else if ((s : ℚ) / (((20 + 10 + 30 + 15 + 15 + 10 : Nat) : Nat) : ℚ)) * 100 ≥ 40
        then "D"
      else "F") = _
    rw [hpq]
    rfl

/-- C9: the aggregator is deterministic — running the doctor pipeline
leaves the file-system snapshot unchanged (every primitive it threads the
state through is a read), so a second run on the state returned by the
first produces an identical report. -/
theorem C9_doctor_deterministic (dir : String) (fs : FS) :
    (doctorRun dir ((doctorRun dir fs).2)).1 = (doctorRun dir fs).1 ∧
    (doctorRun dir fs).2 = fs := by
  refine ⟨?_, doctorRun_state dir fs⟩
  rw [doctorRun_state dir fs]

end CursorLint
